import Mathlib

/-!
Verification of the Composer MCP server core (src/composer_mcp_server/server.py)
against its design specification.

The server module under verification forwards tool calls to a remote brokerage
service.  Its local logic — response post-processing for the backtest tools,
guard clauses on invest/withdraw amounts, key removal in the portfolio-stats
tool, the daily-performance date conversion, and the broken payload of
execute_single_trade — is embedded shallowly below.  JSON values are an
inductive type; Python dicts are association lists with unique keys (updates
keep the original position, deletion removes the key); Python floats are
modelled as rationals; fallible code returns Option or an explicit outcome
type.

The helper modules composer_mcp_server/schemas.py and composer_mcp_server/utils.py
are not part of the source tree under verification; the functions imported from
them (validate_symphony_score, parse_backtest_output, truncate_text,
epoch_ms_to_date, BacktestResponse) are modelled from the specification, each
with a doc comment saying so.
-/

/-- A JSON value, as produced by Python json decoding: null, booleans, numbers
(modelled as rationals), strings, arrays, and objects (ordered key/value lists,
keys unique as in a Python dict). -/
inductive JValue where
  | null : JValue
  | bool (b : Bool) : JValue
  | num (q : ℚ) : JValue
  | str (s : String) : JValue
  | arr (elems : List JValue) : JValue
  | obj (fields : List (String × JValue)) : JValue

/-- Dict lookup: `d.get(k)` / `d[k]` on a Python dict modelled as an
association list. -/
def getKey (fields : List (String × JValue)) (k : String) : Option JValue :=
  (fields.find? (fun p => p.1 == k)).map (fun p => p.2)

/-- Dict assignment `d[k] = v`: updates the entry in place when the key is
present (keeping its position, as a Python dict does), appends otherwise. -/
def setKey : List (String × JValue) → String → JValue → List (String × JValue)
  | [], k, v => [(k, v)]
  | (k', v') :: rest, k, v =>
      if k' == k then (k', v) :: rest else (k', v') :: setKey rest k v

/-- Dict deletion `del d[k]`: after deletion the key is absent.  On an
association list with unique keys this is removal of the single entry. -/
def delKey (fields : List (String × JValue)) (k : String) : List (String × JValue) :=
  fields.filter (fun p => p.1 != k)

/-- Python truthiness of `d.get(k)`: absent keys give None which is falsy;
False, 0, the empty string, the empty list and the empty dict are falsy. -/
def truthy : Option JValue → Bool
  | none => false
  | some .null => false
  | some (.bool b) => b
  | some (.num q) => q != 0
  | some (.str s) => !s.isEmpty
  | some (.arr l) => !l.isEmpty
  | some (.obj l) => !l.isEmpty

/-- Modelled from the spec: truncate_text lives in composer_mcp_server/utils.py,
which is not in the source tree; the spec (section 4.3 failure policy, section 9)
says error messages and raw bodies are truncated to a fixed length of 1000
units.  Modelled as taking the first n characters. -/
def truncate_text (s : String) (n : Nat) : String :=
  String.mk (s.data.take n)

/-- Left-pad a number to two digits, for the month and day fields of a
YYYY-MM-DD date string. -/
def pad2 (n : Nat) : String :=
  if n < 10 then "0" ++ toString n else toString n

/-- Left-pad a number to four digits, for the year field of a YYYY-MM-DD date
string. -/
def pad4 (n : Nat) : String :=
  if n < 10 then "000" ++ toString n
  else if n < 100 then "00" ++ toString n
  else if n < 1000 then "0" ++ toString n
  else toString n

/-- Modelled from the spec: epoch_ms_to_date lives in composer_mcp_server/utils.py,
which is not in the source tree; the spec (section 4.3 step 2, section 6) says
every inbound timestamp is epoch milliseconds UTC and is decoded to a
YYYY-MM-DD calendar date string using UTC day boundaries, as a pure stable
conversion.  Days since the epoch are converted to a proleptic Gregorian civil
date by the standard era/day-of-era computation. -/
def epoch_ms_to_date (ms : Nat) : String :=
  let days := ms / 86400000
  let z := days + 719468
  let era := z / 146097
  let doe := z % 146097
  let yoe := (doe - doe / 1460 + doe / 36524 - doe / 146096) / 365
  let y := yoe + era * 400
  let doy := doe - (365 * yoe + yoe / 4 - yoe / 100)
  let mp := (5 * doy + 2) / 153
  let d := doy - (153 * mp + 2) / 5 + 1
  let m := if mp < 10 then mp + 3 else mp - 9
  let y2 := if m ≤ 2 then y + 1 else y
  pad4 y2 ++ "-" ++ pad2 m ++ "-" ++ pad2 d

/-- An httpx response, characterised by what the server code observes of it:
the result of `response.json()` (none when the body is not decodable as JSON,
in which case the call raises), and the raw body text `response.text`. -/
structure HttpResponse where
  json? : Option JValue
  text : String

/-- Extract a JSON number. -/
def asNum : JValue → Option ℚ
  | .num q => some q
  | _ => none

/-- Extract a JSON string. -/
def asStr : JValue → Option String
  | .str s => some s
  | _ => none

/-- Extract a JSON number that is a nonnegative integer (an epoch-millisecond
timestamp). -/
def asEpoch : JValue → Option Nat
  | .num q => if q.den = 1 ∧ 0 ≤ q.num then some q.num.toNat else none
  | _ => none

/-- Map a fallible conversion over a list, failing when any element fails —
the shape of a Python list comprehension whose body may raise. -/
def mapOpt (f : α → Option β) : List α → Option (List β)
  | [] => some []
  | x :: xs =>
      match f x, mapOpt f xs with
      | some b, some bs => some (b :: bs)
      | _, _ => none

/-- Extract the fields of a JSON object, converting each value with f. -/
def extractFields (f : JValue → Option α) : JValue → Option (List (String × α))
  | .obj fields => mapOpt (fun p => (f p.2).map (fun a => (p.1, a))) fields
  | _ => none

/-- One point of a sparse per-symbol series: a pair of an epoch-millisecond
timestamp and a numeric value. -/
def extractPoint : JValue → Option (Nat × ℚ)
  | .arr [t, v] =>
      (match asEpoch t, asNum v with
       | some ms, some q => some (ms, q)
       | _, _ => none)
  | _ => none

/-- Extract one sparse series: a JSON array of timestamp/value pairs. -/
def extractSeries (v : JValue) : Option (List (Nat × ℚ)) :=
  match v with
  | .arr pts => mapOpt extractPoint pts
  | _ => none

/-- Modelled from the spec: the BacktestResponse pydantic model lives in
composer_mcp_server/schemas.py, which is not in the source tree.  Per the spec
(sections 3 and 4.3) a decodable backtest payload carries a Legend (symbol
table from internal identifiers to display tickers), the sparse per-symbol
DvmCapital series keyed by epoch-millisecond dates, the aggregate stats block
(opaque numeric fields), and — attached by the server before parsing — the
requested starting capital. -/
structure BacktestPayload where
  legend : List (String × String)
  dvm_capital : List (String × List (Nat × ℚ))
  stats : List (String × ℚ)
  capital : ℚ

/-- Modelled from the spec: constructing `BacktestResponse(**output)` validates
the raw decoded object into the typed payload; a shape mismatch raises (here:
returns none), which the server code turns into the truncated error dict. -/
def toBacktestPayload (fields : List (String × JValue)) : Option BacktestPayload :=
  match getKey fields "stats", getKey fields "legend",
        getKey fields "dvm_capital", getKey fields "capital" with
  | some sv, some lv, some dv, some (.num c) =>
      match extractFields asNum sv, extractFields asStr lv,
            extractFields extractSeries dv with
      | some st, some lg, some sr => some ⟨lg, sr, st, c⟩
      | _, _, _ => none
  | _, _, _, _ => none

/-- Resolve an internal symbol identifier to its display ticker through the
Legend; identifiers missing from the Legend pass through unchanged. -/
def resolveTicker (legend : List (String × String)) (id : String) : String :=
  match legend.find? (fun p => p.1 == id) with
  | some p => p.2
  | none => id

/-- The decoded, caller-facing form of a backtest result: the stats block with
the starting capital attached, the Legend, and — unless truncated away — the
per-day series with Legend-resolved symbols and YYYY-MM-DD dates. -/
structure NormalizedBacktest where
  stats : List (String × ℚ)
  legend : List (String × String)
  daily_values : Option (List (String × List (String × ℚ)))

/-- Materialise the per-day series: resolve each symbol identifier through the
Legend and decode each epoch-millisecond date to a YYYY-MM-DD string. -/
def materializeSeries (p : BacktestPayload) : List (String × List (String × ℚ)) :=
  p.dvm_capital.map (fun s =>
    (resolveTicker p.legend s.1,
     s.2.map (fun pt => (epoch_ms_to_date pt.1, pt.2))))

/-- Modelled from the spec: parse_backtest_output lives in
composer_mcp_server/utils.py, which is not in the source tree.  Per the spec
(section 4.3 steps 1 to 5) it resolves the Legend, decodes dates, materialises
the per-symbol series, attaches the requested starting capital to the stats
block, and, when include_daily_values is false, drops the per-day series
entirely, retaining only the aggregate stats and the Legend. -/
def parse_backtest_output (p : BacktestPayload) (include_daily_values : Bool) :
    NormalizedBacktest :=
  ⟨p.stats ++ [("capital", p.capital)],
   p.legend,
   if include_daily_values then some (materializeSeries p) else none⟩

/-- What a backtest tool call returns, as far as the local code is concerned:
an unhandled exception propagating out of the tool body, a plain JSON value
(the passthrough of a stats-less payload, or the error dict built in the
except clause), or a parsed backtest. -/
inductive DecodeResult where
  | raised (e : String) : DecodeResult
  | ok (v : JValue) : DecodeResult
  | parsed (nb : NormalizedBacktest) : DecodeResult

/-- The dict built in the except clauses of both backtest tools: the exception
message and the raw response body, each truncated to 1000 characters
(server.py lines 69 and 122). -/
def errorDict (msg : String) (body : String) : JValue :=
  .obj [("error", .str (truncate_text msg 1000)),
        ("response", .str (truncate_text body 1000))]

/-- The shared body of the two backtest tools once `output = response.json()`
has succeeded on a JSON object (server.py lines 62 to 69 and 116 to 122):
attach the requested capital, and if the payload has a truthy stats field,
parse it — a parse failure is caught and becomes the truncated error dict —
otherwise return the payload as is. -/
def backtestDecodeBody (fields : List (String × JValue)) (capital : ℚ)
    (include_daily_values : Bool) (bodyText : String) : DecodeResult :=
  let output := setKey fields "capital" (.num capital)
  if truthy (getKey output "stats") then
    match toBacktestPayload output with
    | some p => .parsed (parse_backtest_output p include_daily_values)
    | none => .ok (errorDict "validation error for BacktestResponse" bodyText)
  else
    .ok (.obj output)

/-- The response handling of backtest_symphony_by_id (server.py lines 61 to 69).
`output = response.json()` and `output["capital"] = capital` sit OUTSIDE the
try clause: a body that is not decodable as JSON raises an unhandled
JSONDecodeError, and a decodable body that is not an object raises an
unhandled TypeError on the item assignment. -/
def backtest_symphony_by_id_decode (resp : HttpResponse) (capital : ℚ)
    (include_daily_values : Bool) : DecodeResult :=
  match resp.json? with
  | none => .raised "json.decoder.JSONDecodeError"
  | some (.obj fields) =>
      backtestDecodeBody fields capital include_daily_values resp.text
  | some _ => .raised "TypeError"

/-- The response handling of backtest_symphony (server.py lines 114 to 122).
Here `output = response.json()` and the item assignment sit INSIDE the try
clause, so both failure modes are caught and become the truncated error
dict. -/
def backtest_symphony_decode (resp : HttpResponse) (capital : ℚ)
    (include_daily_values : Bool) : DecodeResult :=
  match resp.json? with
  | none => .ok (errorDict "json.decoder.JSONDecodeError" resp.text)
  | some (.obj fields) =>
      backtestDecodeBody fields capital include_daily_values resp.text
  | some _ => .ok (errorDict "TypeError" resp.text)

/-- The response post-processing shared by get_symphony_daily_performance
(server.py lines 228 to 231) and get_portfolio_daily_performance (lines 247 to
250): read the epoch_ms list from the decoded object, set dates to its
elementwise YYYY-MM-DD decoding, delete the epoch_ms key, and return the
object.  A missing epoch_ms key, a non-list value, or a non-timestamp element
raises (modelled as none). -/
def daily_performance_transform (fields : List (String × JValue)) :
    Option (List (String × JValue)) :=
  match getKey fields "epoch_ms" with
  | some (.arr es) =>
      match mapOpt asEpoch es with
      | some msList =>
          let withDates := setKey fields "dates"
            (.arr (msList.map (fun ms => .str (epoch_ms_to_date ms))))
          some (delKey withDates "epoch_ms")
      | none => none
  | _ => none

/-- What an account-operation tool does locally: return an error dict without
touching the network, or forward a request body to the remote service. -/
inductive ForwardResult where
  | errorReturn (d : List (String × JValue)) : ForwardResult
  | request (body : List (String × JValue)) : ForwardResult

/-- invest_in_symphony (server.py lines 356 to 374): amounts that are not
strictly positive are rejected locally with an error dict; otherwise the
amount is forwarded as the request body. -/
def invest_in_symphony (_account_uuid : String) (_symphony_id : String)
    (amount : ℚ) : ForwardResult :=
  if amount ≤ 0 then
    .errorReturn [("error", .str "Amount must be greater than 0")]
  else
    .request [("amount", .num amount)]

/-- withdraw_from_symphony (server.py lines 377 to 395): amounts that are not
strictly negative are rejected locally with an error dict; otherwise the
amount is forwarded as the request body. -/
def withdraw_from_symphony (_account_uuid : String) (_symphony_id : String)
    (amount : ℚ) : ForwardResult :=
  if amount ≥ 0 then
    .errorReturn [("error", .str "Amount must be less than 0")]
  else
    .request [("amount", .num amount)]

/-- The response post-processing of get_aggregate_portfolio_stats (server.py
lines 191 to 194): when the decoded object has a time_weighted_return key, it
is deleted; everything else is returned unchanged. -/
def get_aggregate_portfolio_stats_transform (data : List (String × JValue)) :
    List (String × JValue) :=
  if (data.find? (fun p => p.1 == "time_weighted_return")).isSome then
    delKey data "time_weighted_return"
  else
    data

/-- The arguments of execute_single_trade (server.py lines 493 to 501):
account, order type, symbol, time in force, and the optional notional and
quantity. -/
structure TradeArgs where
  account_uuid : String
  type : String
  symbol : String
  time_in_force : String
  notional : Option ℚ
  quantity : Option ℚ

/-- What a call to execute_single_trade does: raise a NameError for an
undefined name, return an error dict locally, or send the order request. -/
inductive TradeOutcome where
  | nameError (missing : String) : TradeOutcome
  | errorReturn (d : List (String × JValue)) : TradeOutcome
  | request (payload : List (String × JValue)) : TradeOutcome

/-- The names bound in the scope of execute_single_trade when the payload dict
literal on server.py lines 510 to 516 is evaluated: the six parameters and the
url assigned on line 508.  Neither position_id nor source is among them. -/
def executeSingleTradeScope : List String :=
  ["account_uuid", "type", "symbol", "time_in_force", "notional", "quantity", "url"]

/-- Python falsiness of an optional float, as tested by
`if not notional and not quantity` on server.py line 522: None and 0.0 are
falsy. -/
def pyFalsyOptNum : Option ℚ → Bool
  | none => true
  | some q => q == 0

/-- Render an optional rational as the JSON value Python would serialise. -/
def optNumToJson : Option ℚ → JValue
  | none => .null
  | some q => .num q

/-- execute_single_trade (server.py lines 493 to 530), statement by statement.
The payload dict literal evaluates its entries in order; its first value is
the name position_id, which is not in scope, so evaluation raises NameError
there — before the later source lookup, before the notional/quantity presence
check on line 522, and before the httpx.post call on line 525. -/
def execute_single_trade (args : TradeArgs) : TradeOutcome :=
  if _h1 : "position_id" ∉ executeSingleTradeScope then
    .nameError "position_id"
  else if _h2 : "source" ∉ executeSingleTradeScope then
    .nameError "source"
  else
    let payload : List (String × JValue) :=
      [("position_id", .null),
       ("type", .str args.type),
       ("symbol", .str args.symbol),
       ("time_in_force", .str args.time_in_force),
       ("source", .null)]
    let payload := match args.notional with
      | some n => setKey payload "notional" (.num n)
      | none => payload
    let payload := match args.quantity with
      | some q => setKey payload "quantity" (.num q)
      | none => payload
    if pyFalsyOptNum args.notional && pyFalsyOptNum args.quantity then
      .errorReturn [("error", .str "One of notional or quantity must be provided")]
    else
      .request payload

/-- Modelled from the spec: the rebalance frequency enumeration of a
StrategySpec (spec section 3): daily, weekly, monthly, quarterly, or
threshold. -/
inductive RebalanceFrequency where
  | daily | weekly | monthly | quarterly | threshold
deriving DecidableEq

/-- Modelled from the spec: the asset classes a symphony may declare (spec
section 3): EQUITIES and CRYPTO. -/
inductive AssetClass where
  | equities | crypto
deriving DecidableEq

/-- Modelled from the spec: the strategy tree (spec section 3).  The fragment
the claims exercise: asset leaves carrying a ticker symbol, and weighting
groups carrying either explicit percentage weights for their children or the
equal-weight marker (none). -/
inductive StrategyNode where
  | assetLeaf (id : String) (ticker : String) : StrategyNode
  | weightingGroup (id : String) (weights : Option (List ℚ))
      (children : List StrategyNode) : StrategyNode

/-- Modelled from the spec: the typed validation errors of spec sections 4.2
and 7.  WeightSumMismatch carries the offending node id and observed sum. -/
inductive ValidationError where
  | weightSumMismatch (node_id : String) (observed_sum : ℚ) : ValidationError
  | invalidTicker (node_id : String) : ValidationError
  | assetClassRebalanceMismatch : ValidationError
deriving DecidableEq

/-- The weight-sum tolerance: spec section 4.2 allows the explicit weights of
a weighting group to differ from 100 percent by a small epsilon, for example
0.01 percent. -/
def weightEps : ℚ := 1 / 100

/-- Sum of a list of percentage weights. -/
def wsum (ws : List ℚ) : ℚ := ws.foldr (fun a b => a + b) 0

/-- The syntactic ticker pattern of spec section 4.2: nonempty, at most six
characters, uppercase letters and digits only. -/
def tickerOk (s : String) : Bool :=
  !s.isEmpty && s.length ≤ 6 && s.data.all (fun c => c.isUpper || c.isDigit)

mutual

/-- Modelled from the spec: the per-node part of validate_symphony_score,
which lives in composer_mcp_server/schemas.py, not in the source tree.  Spec
section 4.2: a deterministic pre-order depth-first walk that stops at the
first violation; leaf nodes must carry a syntactically valid ticker; a
weighting group with explicit weights must have them sum to 100 percent
within the epsilon, else WeightSumMismatch with the observed sum; children
are checked left to right after the node itself. -/
def validateNode : StrategyNode → Option ValidationError
  | .assetLeaf id t =>
      if tickerOk t then none else some (.invalidTicker id)
  | .weightingGroup id w? children =>
      match w? with
      | some ws =>
          if |wsum ws - 100| ≤ weightEps then validateChildren children
          else some (.weightSumMismatch id (wsum ws))
      | none => validateChildren children

/-- Check the children of a weighting group left to right, returning the first
violation. -/
def validateChildren : List StrategyNode → Option ValidationError
  | [] => none
  | c :: cs =>
      match validateNode c with
      | some e => some e
      | none => validateChildren cs

end

/-- Modelled from the spec: the SymphonyScore pydantic model (named StrategySpec
in spec section 3) lives in composer_mcp_server/schemas.py, not in the
source tree: name, description, rebalance frequency, declared asset classes,
and the root of the strategy tree. -/
structure SymphonyScore where
  name : String
  description : String
  rebalance_frequency : RebalanceFrequency
  asset_classes : List AssetClass
  root : StrategyNode

/-- Modelled from the spec: validate_symphony_score lives in
composer_mcp_server/schemas.py, not in the source tree.  Spec section 4.2:
walk the tree pre-order and fail fast on the first violation; after the walk,
check the spec-level invariant that a symphony declaring both EQUITIES and
CRYPTO uses daily or threshold rebalancing; on success return the spec
unchanged (validation is non-mutating). -/
def validate_symphony_score (spec : SymphonyScore) :
    Except ValidationError SymphonyScore :=
  match validateNode spec.root with
  | some e => .error e
  | none =>
      if AssetClass.equities ∈ spec.asset_classes ∧
         AssetClass.crypto ∈ spec.asset_classes then
        match spec.rebalance_frequency with
        | .daily => .ok spec
        | .threshold => .ok spec
        | _ => .error .assetClassRebalanceMismatch
      else
        .ok spec

/-- Whether validation succeeded. -/
def validationPasses : Except ValidationError SymphonyScore → Bool
  | .ok _ => true
  | .error _ => false

/-- A mixed-asset-class symphony over one weighting group and two leaves,
with the given rebalance frequency. -/
def mixedSpec (f : RebalanceFrequency) : SymphonyScore :=
  ⟨"Mixed", "equities and crypto", f, [.equities, .crypto],
   .weightingGroup "g" (some [60, 40])
     [.assetLeaf "a" "SPY", .assetLeaf "b" "BTC"]⟩

/-- An equities-only symphony whose root weighting group carries the given
explicit weights over two leaves. -/
def weightSpec (ws : List ℚ) : SymphonyScore :=
  ⟨"Weights", "explicit weights", .weekly, [.equities],
   .weightingGroup "g" (some ws)
     [.assetLeaf "a" "SPY", .assetLeaf "b" "QQQ"]⟩

theorem getKey_setKey_same (fs : List (String × JValue)) (k : String) (v : JValue) :
    getKey (setKey fs k v) k = some v := by
  induction fs with
  | nil => simp [getKey, setKey]
  | cons p rest ih =>
      obtain ⟨k', v'⟩ := p
      by_cases h : k' = k
      · subst h
        simp [getKey, setKey]
      · simp only [setKey, beq_iff_eq, if_neg h]
        simpa [getKey, List.find?_cons, h] using ih

theorem getKey_setKey_other (fs : List (String × JValue)) (k k' : String)
    (v : JValue) (h : k' ≠ k) : getKey (setKey fs k v) k' = getKey fs k' := by
  induction fs with
  | nil => simp [getKey, setKey, List.find?_cons, (Ne.symm h)]
  | cons p rest ih =>
      obtain ⟨k0, v0⟩ := p
      by_cases h0 : k0 = k
      · subst h0
        simp [getKey, setKey, List.find?_cons, (Ne.symm h)]
      · simp only [setKey, beq_iff_eq, if_neg h0]
        by_cases h1 : k0 = k'
        · subst h1
          simp [getKey, List.find?_cons]
        · simpa [getKey, List.find?_cons, h1] using ih

theorem getKey_delKey_same (fs : List (String × JValue)) (k : String) :
    getKey (delKey fs k) k = none := by
  induction fs with
  | nil => simp [getKey, delKey]
  | cons p rest ih =>
      obtain ⟨k0, v0⟩ := p
      by_cases h0 : k0 = k
      · subst h0
        simp only [delKey, List.filter_cons, bne_self_eq_false] at ih ⊢
        simp only [Bool.false_eq_true, if_false]
        exact ih
      · simp only [delKey, List.filter_cons] at ih ⊢
        have hb : (k0 != k) = true := bne_iff_ne.mpr h0
        rw [hb]
        simp only [if_true]
        simp only [getKey, List.find?_cons]
        have hk : (k0 == k) = false := beq_eq_false_iff_ne.mpr h0
        rw [hk]
        exact ih

theorem getKey_delKey_other (fs : List (String × JValue)) (k k' : String)
    (h : k' ≠ k) : getKey (delKey fs k) k' = getKey fs k' := by
  induction fs with
  | nil => simp [getKey, delKey]
  | cons p rest ih =>
      obtain ⟨k0, v0⟩ := p
      by_cases h0 : k0 = k
      · subst h0
        simp only [delKey, List.filter_cons]
        simpa [getKey, delKey, List.find?_cons, Ne.symm h] using ih
      · by_cases h1 : k0 = k'
        · subst h1
          simp [getKey, delKey, List.filter_cons, List.find?_cons, h0]
        · simpa [getKey, delKey, List.filter_cons, List.find?_cons, h0, h1] using ih

theorem mapOpt_length {α β : Type} (f : α → Option β) :
    ∀ (xs : List α) (ys : List β), mapOpt f xs = some ys → ys.length = xs.length := by
  intro xs
  induction xs with
  | nil =>
      intro ys h
      simp only [mapOpt] at h
      cases h
      rfl
  | cons x rest ih =>
      intro ys h
      simp only [mapOpt] at h
      cases hx : f x with
      | none => simp [hx] at h
      | some b =>
          cases hr : mapOpt f rest with
          | none => simp [hx, hr] at h
          | some bs =>
              simp only [hx, hr] at h
              cases h
              simp [ih bs hr]




/-- C2: for every input, execute_single_trade raises an unhandled NameError on
the undefined name position_id while building the request payload, before the
notional/quantity presence check and before any network request; consequently
the documented error return about notional or quantity is unreachable. -/
theorem c2_execute_single_trade_name_error (args : TradeArgs) :
    execute_single_trade args = .nameError "position_id" := by
  simp only [execute_single_trade]
  rw [dif_pos (by decide)]

/-- C4: for every decodable backtest payload with a stats field, decoding with
include_daily_values true and false yields identical stats and Legend; the
false result has no per-day series, and with true the series are present —
nothing but the per-day series changes. -/
theorem c4_truncation (p : BacktestPayload) (include_daily_values : Bool) :
    (parse_backtest_output p true).stats = (parse_backtest_output p false).stats
    ∧ (parse_backtest_output p true).legend = (parse_backtest_output p false).legend
    ∧ (parse_backtest_output p false).daily_values = none
    ∧ (parse_backtest_output p true).daily_values = some (materializeSeries p)
    ∧ (parse_backtest_output p include_daily_values).stats
        = p.stats ++ [("capital", p.capital)] := by
  refine ⟨rfl, rfl, rfl, rfl, rfl⟩

/-- C9: withdraw_from_symphony returns the local error dict for every amount
that is at least 0 and forwards the request for every amount below 0;
invest_in_symphony returns the local error dict for every amount at most 0 and
forwards the request for every amount above 0.  The error branches never touch
the network and the request branches carry the amount unchanged. -/
theorem c9_amount_guards (u s : String) (a : ℚ) :
    (0 ≤ a → withdraw_from_symphony u s a
        = .errorReturn [("error", .str "Amount must be less than 0")])
    ∧ (a < 0 → withdraw_from_symphony u s a = .request [("amount", .num a)])
    ∧ (a ≤ 0 → invest_in_symphony u s a
        = .errorReturn [("error", .str "Amount must be greater than 0")])
    ∧ (0 < a → invest_in_symphony u s a = .request [("amount", .num a)]) := by
  refine ⟨fun h => ?_, fun h => ?_, fun h => ?_, fun h => ?_⟩
  · simp [withdraw_from_symphony, h]
  · simp [withdraw_from_symphony, not_le.mpr h, le_of_lt h]
  · simp [invest_in_symphony, h]
  · simp [invest_in_symphony, not_le.mpr h]

/-- Closed witness for C9 at concrete amounts 5 and -5. -/
theorem c9_amount_guards_witness :
    withdraw_from_symphony "acct" "sym" 5
        = .errorReturn [("error", .str "Amount must be less than 0")]
    ∧ withdraw_from_symphony "acct" "sym" (-5) = .request [("amount", .num (-5))]
    ∧ invest_in_symphony "acct" "sym" (-5)
        = .errorReturn [("error", .str "Amount must be greater than 0")]
    ∧ invest_in_symphony "acct" "sym" 5 = .request [("amount", .num 5)] :=
  ⟨(c9_amount_guards "acct" "sym" 5).1 (by norm_num),
   (c9_amount_guards "acct" "sym" (-5)).2.1 (by norm_num),
   (c9_amount_guards "acct" "sym" (-5)).2.2.1 (by norm_num),
   (c9_amount_guards "acct" "sym" 5).2.2.2 (by norm_num)⟩

/-- C10: get_aggregate_portfolio_stats never returns the key
time_weighted_return — after the transform that key is absent — and lookup of
every other key is unchanged from the upstream response. -/
theorem c10_time_weighted_return_removed (data : List (String × JValue)) :
    getKey (get_aggregate_portfolio_stats_transform data) "time_weighted_return" = none
    ∧ ∀ k : String, k ≠ "time_weighted_return" →
        getKey (get_aggregate_portfolio_stats_transform data) k = getKey data k := by
  constructor
  · by_cases h : (data.find? (fun p => p.1 == "time_weighted_return")).isSome
    · simp only [get_aggregate_portfolio_stats_transform, if_pos h]
      exact getKey_delKey_same data "time_weighted_return"
    · simp only [get_aggregate_portfolio_stats_transform, if_neg h]
      have hf : data.find? (fun p => p.1 == "time_weighted_return") = none :=
        Option.not_isSome_iff_eq_none.mp h
      simp [getKey, hf]
  · intro k hk
    by_cases h : (data.find? (fun p => p.1 == "time_weighted_return")).isSome
    · simp only [get_aggregate_portfolio_stats_transform, if_pos h]
      exact getKey_delKey_other data "time_weighted_return" k hk
    · simp only [get_aggregate_portfolio_stats_transform, if_neg h]

/-- Closed witness for C10 on a concrete upstream response carrying a
time_weighted_return key and a portfolio_value key. -/
theorem c10_time_weighted_return_removed_witness :
    getKey (get_aggregate_portfolio_stats_transform
        [("portfolio_value", .num 100), ("time_weighted_return", .num 3)])
        "portfolio_value"
      = getKey [("portfolio_value", .num 100), ("time_weighted_return", .num 3)]
        "portfolio_value" :=
  (c10_time_weighted_return_removed
    [("portfolio_value", .num 100), ("time_weighted_return", .num 3)]).2
    "portfolio_value" (by decide)

/-- C1 counterexample: the claim fails on the code at two concrete inputs.
A response whose body is not decodable as JSON makes backtest_symphony_by_id
raise an unhandled JSONDecodeError, because response.json() sits outside the
try clause; and a decodable payload lacking a stats field is returned by the
same operation as a plain passthrough with capital attached and WITHOUT any
error field. -/
theorem c1_graceful_degrade_counterexample :
    backtest_symphony_by_id_decode ⟨none, "Internal Server Error"⟩ 10000 true
      = .raised "json.decoder.JSONDecodeError"
    ∧ backtest_symphony_by_id_decode
        ⟨some (.obj [("status", .str "error")]), "body"⟩ 10000 true
      = .ok (.obj [("status", .str "error"), ("capital", .num 10000)])
    ∧ getKey [("status", .str "error"), ("capital", .num 10000)] "error" = none := by
  refine ⟨rfl, ?_, rfl⟩
  rfl

/-- C1 amended: backtest_symphony catches a JSON-decode failure and returns the
error dict with the message and the raw body each truncated to 1000
characters, while backtest_symphony_by_id raises an unhandled fault on the
same input because its response.json() call sits outside the try clause; and
for both operations a decodable object payload without a truthy stats field is
returned as a passthrough with capital attached and no error augmentation. -/
theorem c1_graceful_degrade_amended :
    (∀ (t : String) (capital : ℚ) (idv : Bool),
      backtest_symphony_decode ⟨none, t⟩ capital idv
        = .ok (.obj [("error", .str (truncate_text "json.decoder.JSONDecodeError" 1000)),
                     ("response", .str (truncate_text t 1000))])
      ∧ backtest_symphony_by_id_decode ⟨none, t⟩ capital idv
        = .raised "json.decoder.JSONDecodeError")
    ∧ (∀ (resp : HttpResponse) (fields : List (String × JValue)) (capital : ℚ)
        (idv : Bool),
      resp.json? = some (.obj fields) →
      truthy (getKey (setKey fields "capital" (.num capital)) "stats") = false →
      backtest_symphony_by_id_decode resp capital idv
          = .ok (.obj (setKey fields "capital" (.num capital)))
      ∧ backtest_symphony_decode resp capital idv
          = .ok (.obj (setKey fields "capital" (.num capital)))) := by
  constructor
  · intro t capital idv
    exact ⟨rfl, rfl⟩
  · intro resp fields capital idv hjson hstats
    obtain ⟨j, t⟩ := resp
    simp only at hjson
    subst hjson
    constructor
    · simp only [backtest_symphony_by_id_decode, backtestDecodeBody, hstats,
        Bool.false_eq_true, if_false]
    · simp only [backtest_symphony_decode, backtestDecodeBody, hstats,
        Bool.false_eq_true, if_false]

/-- Closed witness for the amended C1 at a concrete stats-less payload. -/
theorem c1_graceful_degrade_amended_witness :
    backtest_symphony_by_id_decode ⟨some (.obj []), "x"⟩ 5 true
        = .ok (.obj [("capital", .num 5)])
    ∧ backtest_symphony_decode ⟨some (.obj []), "x"⟩ 5 true
        = .ok (.obj [("capital", .num 5)]) :=
  c1_graceful_degrade_amended.2 ⟨some (.obj []), "x"⟩ [] 5 true rfl rfl

/-- C7: for every backtest call whose decodable object payload has a truthy
stats field and parses, both operations return the parsed result; the payload
capital — read back from the object AFTER the server wrote the caller-supplied
value into it — equals the capital argument, and the decoded stats block
contains the pair of the key capital with that value. -/
theorem c7_capital_attached (resp : HttpResponse)
    (fields : List (String × JValue)) (capital : ℚ) (idv : Bool)
    (p : BacktestPayload)
    (hjson : resp.json? = some (.obj fields))
    (hstats : truthy (getKey (setKey fields "capital" (.num capital)) "stats") = true)
    (hparse : toBacktestPayload (setKey fields "capital" (.num capital)) = some p) :
    backtest_symphony_by_id_decode resp capital idv
        = .parsed (parse_backtest_output p idv)
    ∧ backtest_symphony_decode resp capital idv
        = .parsed (parse_backtest_output p idv)
    ∧ p.capital = capital
    ∧ ("capital", capital) ∈ (parse_backtest_output p idv).stats := by
  obtain ⟨j, t⟩ := resp
  simp only at hjson
  subst hjson
  have hcap : p.capital = capital := by
    have hc : getKey (setKey fields "capital" (.num capital)) "capital"
        = some (.num capital) := getKey_setKey_same fields "capital" (.num capital)
    simp only [toBacktestPayload, hc] at hparse
    cases h1 : getKey (setKey fields "capital" (.num capital)) "stats" with
    | none => rw [h1] at hparse; cases hparse
    | some sv =>
        rw [h1] at hparse
        cases h2 : getKey (setKey fields "capital" (.num capital)) "legend" with
        | none => rw [h2] at hparse; cases hparse
        | some lv =>
            rw [h2] at hparse
            cases h3 : getKey (setKey fields "capital" (.num capital)) "dvm_capital" with
            | none => rw [h3] at hparse; cases hparse
            | some dv =>
                rw [h3] at hparse
                dsimp only at hparse
                cases h4 : extractFields asNum sv with
                | none => rw [h4] at hparse; cases hparse
                | some st =>
                    rw [h4] at hparse
                    cases h5 : extractFields asStr lv with
                    | none => rw [h5] at hparse; cases hparse
                    | some lg =>
                        rw [h5] at hparse
                        cases h6 : extractFields extractSeries dv with
                        | none => rw [h6] at hparse; cases hparse
                        | some sr =>
                            rw [h6] at hparse
                            dsimp only at hparse
                            simp only [Option.some.injEq] at hparse
                            rw [hparse.symm]
  refine ⟨?_, ?_, hcap, ?_⟩
  · simp only [backtest_symphony_by_id_decode, backtestDecodeBody, hstats, if_true,
      hparse]
  · simp only [backtest_symphony_decode, backtestDecodeBody, hstats, if_true, hparse]
  · simp only [parse_backtest_output, hcap]
    exact List.mem_append.mpr (Or.inr (List.mem_singleton.mpr rfl))

/-- Closed witness for C7 at a concrete decodable payload with a stats field:
the decoded stats block contains the caller-supplied capital 10000. -/
theorem c7_capital_attached_witness :
    ("capital", (10000 : ℚ)) ∈ (parse_backtest_output
      ⟨[("1", "SPY")], [("1", [(1700000000000, 42)])], [("cagr", 5)], 10000⟩
      false).stats :=
  (c7_capital_attached
    ⟨some (.obj [("stats", .obj [("cagr", .num 5)]),
                 ("legend", .obj [("1", .str "SPY")]),
                 ("dvm_capital", .obj [("1", .arr [.arr [.num 1700000000000, .num 42]])])]),
     "body"⟩
    [("stats", .obj [("cagr", .num 5)]),
     ("legend", .obj [("1", .str "SPY")]),
     ("dvm_capital", .obj [("1", .arr [.arr [.num 1700000000000, .num 42]])])]
    10000 false
    ⟨[("1", "SPY")], [("1", [(1700000000000, 42)])], [("cagr", 5)], 10000⟩
    rfl rfl (by rfl)).2.2.2

/-- C3: epoch-millisecond decoding is a pure deterministic function, it maps
1700000000000 to the UTC date 2023-11-14, and repeated calls agree; the
daily-performance transform shared by get_symphony_daily_performance and
get_portfolio_daily_performance applies it elementwise: the output dates list
is the elementwise decoding of the input epoch_ms list, it has the same
length, and the epoch_ms key is absent from the output. -/
theorem c3_date_decoding :
    epoch_ms_to_date 1700000000000 = "2023-11-14"
    ∧ (∀ ms : Nat, epoch_ms_to_date ms = epoch_ms_to_date ms)
    ∧ (∀ (fields : List (String × JValue)) (es : List JValue)
        (msList : List Nat) (out : List (String × JValue)),
      getKey fields "epoch_ms" = some (.arr es) →
      mapOpt asEpoch es = some msList →
      daily_performance_transform fields = some out →
      getKey out "dates"
          = some (.arr (msList.map (fun ms => .str (epoch_ms_to_date ms))))
      ∧ (msList.map (fun ms => JValue.str (epoch_ms_to_date ms))).length = es.length
      ∧ getKey out "epoch_ms" = none) := by
  refine ⟨by decide, fun ms => rfl, ?_⟩
  intro fields es msList out hget hmap htr
  simp only [daily_performance_transform, hget, hmap] at htr
  simp only [Option.some.injEq] at htr
  subst htr
  refine ⟨?_, ?_, ?_⟩
  · rw [getKey_delKey_other _ _ _ (by decide)]
    exact getKey_setKey_same _ _ _
  · rw [List.length_map]
    exact mapOpt_length asEpoch es msList hmap
  · exact getKey_delKey_same _ _

/-- Closed witness for C3 on a concrete daily-performance response with one
epoch-millisecond entry. -/
theorem c3_date_decoding_witness :
    getKey [("series", .arr [.num 250]), ("dates", .arr [.str "2023-11-14"])]
        "epoch_ms" = none :=
  (c3_date_decoding.2.2
    [("epoch_ms", .arr [.num 1700000000000]), ("series", .arr [.num 250])]
    [.num 1700000000000] [1700000000000]
    [("series", .arr [.num 250]),
     ("dates", .arr [.str (epoch_ms_to_date 1700000000000)])]
    rfl rfl rfl).2.2

theorem validateNode_weight_fail (id : String) (ws : List ℚ)
    (children : List StrategyNode) (h : ¬ |wsum ws - 100| ≤ weightEps) :
    validateNode (.weightingGroup id (some ws) children)
      = some (.weightSumMismatch id (wsum ws)) := by
  simp only [validateNode]
  rw [if_neg h]

theorem validateNode_weight_pass (id : String) (ws : List ℚ)
    (children : List StrategyNode) (h : |wsum ws - 100| ≤ weightEps) :
    validateNode (.weightingGroup id (some ws) children)
      = validateChildren children := by
  simp only [validateNode]
  rw [if_pos h]

theorem weightSpec_children_ok :
    validateChildren [.assetLeaf "a" "SPY", .assetLeaf "b" "QQQ"] = none := by
  simp only [validateChildren, validateNode, tickerOk]
  rw [if_pos (by decide), if_pos (by decide)]

/-- C5: a spec declaring both EQUITIES and CRYPTO validates only with daily or
threshold rebalancing; the concrete mixed spec with weekly rebalancing fails
validation with the asset-class/rebalance error, and the same spec with daily
rebalancing (all else equal) passes. -/
theorem c5_asset_class_rebalance :
    (∀ spec : SymphonyScore, AssetClass.equities ∈ spec.asset_classes →
       AssetClass.crypto ∈ spec.asset_classes →
       validationPasses (validate_symphony_score spec) = true →
       spec.rebalance_frequency = .daily ∨ spec.rebalance_frequency = .threshold)
    ∧ validate_symphony_score (mixedSpec .weekly)
        = .error .assetClassRebalanceMismatch
    ∧ validate_symphony_score (mixedSpec .daily) = .ok (mixedSpec .daily) := by
  refine ⟨?_, ?_, ?_⟩
  · intro spec h1 h2 hv
    simp only [validate_symphony_score] at hv
    cases hr : validateNode spec.root with
    | some e => rw [hr] at hv; simp [validationPasses] at hv
    | none =>
        rw [hr] at hv
        dsimp only at hv
        rw [if_pos ⟨h1, h2⟩] at hv
        cases hf : spec.rebalance_frequency with
        | daily => exact Or.inl rfl
        | threshold => exact Or.inr rfl
        | weekly => rw [hf] at hv; simp [validationPasses] at hv
        | monthly => rw [hf] at hv; simp [validationPasses] at hv
        | quarterly => rw [hf] at hv; simp [validationPasses] at hv
  · simp only [validate_symphony_score, mixedSpec, validateNode, validateChildren,
      tickerOk, wsum, weightEps]
    norm_num
    rw [if_pos (by decide), if_pos (by decide)]
  · simp only [validate_symphony_score, mixedSpec, validateNode, validateChildren,
      tickerOk, wsum, weightEps]
    norm_num
    rw [if_pos (by decide), if_pos (by decide)]

/-- Closed witness for C5 at the concrete mixed daily spec. -/
theorem c5_asset_class_rebalance_witness :
    (mixedSpec .daily).rebalance_frequency = .daily
    ∨ (mixedSpec .daily).rebalance_frequency = .threshold :=
  c5_asset_class_rebalance.1 (mixedSpec .daily) (by decide) (by decide)
    (by rw [c5_asset_class_rebalance.2.2]; rfl)

/-- C6: for a weighting-group node with explicit weights the node check fails
with WeightSumMismatch carrying the observed sum exactly when the weights do
not sum to 100 within the epsilon, and otherwise passes through to the
children; over the concrete two-leaf spec family, whole-spec validation
succeeds iff the weights sum to 100 within epsilon; weights 60/40 pass and
weights 60/30 fail with observed sum 90. -/
theorem c6_weight_sum :
    (∀ (id : String) (ws : List ℚ) (children : List StrategyNode),
       ¬ |wsum ws - 100| ≤ weightEps →
       validateNode (.weightingGroup id (some ws) children)
         = some (.weightSumMismatch id (wsum ws)))
    ∧ (∀ (id : String) (ws : List ℚ) (children : List StrategyNode),
       |wsum ws - 100| ≤ weightEps →
       validateNode (.weightingGroup id (some ws) children)
         = validateChildren children)
    ∧ (∀ ws : List ℚ,
       validate_symphony_score (weightSpec ws) = .ok (weightSpec ws)
         ↔ |wsum ws - 100| ≤ weightEps)
    ∧ validate_symphony_score (weightSpec [60, 40]) = .ok (weightSpec [60, 40])
    ∧ validate_symphony_score (weightSpec [60, 30])
        = .error (.weightSumMismatch "g" 90) := by
  have hiff : ∀ ws : List ℚ,
      validate_symphony_score (weightSpec ws) = .ok (weightSpec ws)
        ↔ |wsum ws - 100| ≤ weightEps := by
    intro ws
    constructor
    · intro h
      by_contra hn
      simp only [validate_symphony_score] at h
      rw [show (weightSpec ws).root
            = .weightingGroup "g" (some ws) [.assetLeaf "a" "SPY", .assetLeaf "b" "QQQ"]
          from rfl] at h
      rw [validateNode_weight_fail "g" ws _ hn] at h
      cases h
    · intro hle
      simp only [validate_symphony_score]
      rw [show (weightSpec ws).root
            = .weightingGroup "g" (some ws) [.assetLeaf "a" "SPY", .assetLeaf "b" "QQQ"]
          from rfl]
      rw [validateNode_weight_pass "g" ws _ hle, weightSpec_children_ok]
      dsimp only
      rw [show (weightSpec ws).asset_classes = [AssetClass.equities] from rfl]
      rw [if_neg (by decide)]
  refine ⟨fun id ws children h => validateNode_weight_fail id ws children h,
          fun id ws children h => validateNode_weight_pass id ws children h,
          hiff, ?_, ?_⟩
  · exact (hiff [60, 40]).mpr (by norm_num [wsum, weightEps])
  · simp only [validate_symphony_score, weightSpec]
    rw [validateNode_weight_fail "g" [60, 30] _ (by norm_num [wsum, weightEps])]
    norm_num [wsum]

/-- Closed witness for C6: the weight rule rejects the concrete weights 60/30
with observed sum 90 at a childless weighting group. -/
theorem c6_weight_sum_witness :
    validateNode (.weightingGroup "w" (some [60, 30]) [])
      = some (.weightSumMismatch "w" (wsum [60, 30])) :=
  c6_weight_sum.1 "w" [60, 30] [] (by norm_num [wsum, weightEps])

/-- C8: validation is idempotent and non-mutating: whenever validation of a
spec succeeds, the returned spec is the input spec unchanged, and validating
the returned spec again succeeds with the same spec and no error. -/
theorem c8_validation_idempotent (spec s : SymphonyScore)
    (h : validate_symphony_score spec = .ok s) :
    s = spec ∧ validate_symphony_score s = .ok s := by
  have hs : s = spec := by
    simp only [validate_symphony_score] at h
    cases hr : validateNode spec.root with
    | some e => rw [hr] at h; cases h
    | none =>
        rw [hr] at h
        dsimp only at h
        by_cases hm : AssetClass.equities ∈ spec.asset_classes ∧
            AssetClass.crypto ∈ spec.asset_classes
        · rw [if_pos hm] at h
          cases hf : spec.rebalance_frequency <;> rw [hf] at h <;> dsimp only at h
          all_goals
            first
              | (injection h with h2; exact h2.symm)
              | cases h
        · rw [if_neg hm] at h
          injection h with h2
          exact h2.symm
  subst hs
  exact ⟨rfl, h⟩

/-- Closed witness for C8 at the concrete mixed daily spec: re-validation
returns the identical spec with no error. -/
theorem c8_validation_idempotent_witness :
    mixedSpec .daily = mixedSpec .daily
    ∧ validate_symphony_score (mixedSpec .daily) = .ok (mixedSpec .daily) :=
  c8_validation_idempotent (mixedSpec .daily) (mixedSpec .daily)
    (by
      simp only [validate_symphony_score, mixedSpec, validateNode,
        validateChildren, tickerOk, wsum, weightEps]
      norm_num
      rw [if_pos (by decide), if_pos (by decide)])
